import Mathlib

/-!
Shallow embedding of the trade candidate generation, validation and optimal
assignment engine (src/trade_analyzer.py, src/trade_matcher.py, src/config.py).

Python floats are modelled as rationals (ℚ); Python `round(x, 1)` is modelled
by `round1` below.  Python dicts carrying trade/player data are modelled as
structures whose fields mirror the dictionary keys used by the code (absent
keys read through `.get(k, default)` become fields holding the default).
The networkx maximum-weight-matching primitive is an external library call;
it is modelled as an explicit functional parameter `M : TGraph → List (String × String)`
so that every theorem quantifies over the black box (spec §9 treats it as such).
-/

namespace TradeFinder

/-- A player record as it appears inside a trade's `team_a_sends` /
`team_b_sends` lists and inside enriched rosters: the code reads the keys
`sleeper_id`, `position` and `value`.  A missing `sleeper_id` key (falsy in
Python) is modelled by the empty string; a missing `value` key by the default
the code supplies (`player.get('value', 0)`). -/
structure Player where
  sleeper_id : String
  position : String
  value : ℚ
deriving DecidableEq, Repr

/-- One row of the player-values table (`player_values` DataFrame):
columns `sleeper_id`, `position`, `value`. -/
structure PRow where
  sleeper_id : String
  position : String
  value : ℚ
deriving DecidableEq, Repr

/-- A trade dictionary.  Generation (src/trade_analyzer.py lines 290-300,
340-350) creates the keys `type`, `team_a`, `team_b`, `team_a_sends`,
`team_b_sends`, `positions_addressed`; validation later adds `team_a_gain`,
`team_b_gain`, `value_delta_pct`, `trade_score` which the code reads back
with `.get(k, 0.0)`, so they are fields defaulting to 0. -/
structure Trade where
  type : String
  team_a : String
  team_b : String
  team_a_sends : List Player
  team_b_sends : List Player
  positions_addressed : List (String × List String) := []
  team_a_gain : ℚ := 0
  team_b_gain : ℚ := 0
  value_delta_pct : ℚ := 0
  trade_score : ℚ := 0
deriving DecidableEq, Repr

/-- src/config.py line 29: `FAIRNESS_THRESHOLD = 0.12`. -/
def FAIRNESS_THRESHOLD : ℚ := 12 / 100

/-- src/config.py line 30: `MIN_STARTER_GAIN = 3.0`. -/
def MIN_STARTER_GAIN : ℚ := 3

/-- src/config.py line 31: `MAX_TRADES_PER_WEEK = 6`. -/
def MAX_TRADES_PER_WEEK : Nat := 6

/-- src/config.py line 32: `TOTAL_TEAMS = 12`. -/
def TOTAL_TEAMS : Nat := 12

/-- src/config.py lines 20-26: required starter counts per position. -/
def LINEUP_CONFIG (pos : String) : Nat :=
  if pos = "QB" then 1
  else if pos = "RB" then 2
  else if pos = "WR" then 2
  else if pos = "TE" then 1
  else if pos = "FLEX" then 1
  else 0

/-- Python `round(x, 1)`: round to one decimal place.  (Python uses
round-half-to-even on floats; no claim below depends on exact-tie
behaviour, so the ordinary `round` on ℚ is used.) -/
def round1 (x : ℚ) : ℚ := (round (10 * x) : ℤ) / 10

/-- src/trade_analyzer.py lines 356-402, `score_trade`: base score is the sum
of both teams' gains; the fairness penalty branches on
`abs_delta_pct > FAIRNESS_THRESHOLD` (note: the code compares the percentage
against the raw fraction 0.12); risk penalty adds 20.0 when either gain is
below `MIN_STARTER_GAIN` and 5.0 per player beyond 4 involved; +5.0 bonus for
a 2-for-2; result floored at 0. -/
def score_trade (trade : Trade) (team_a_gains team_b_gains value_delta_pct : ℚ) : ℚ :=
  let base_score := team_a_gains + team_b_gains
  let abs_delta_pct := |value_delta_pct|
  let fairness_penalty :=
    if abs_delta_pct > FAIRNESS_THRESHOLD then (abs_delta_pct - FAIRNESS_THRESHOLD) * 50
    else abs_delta_pct * 10
  let risk_penalty₁ : ℚ :=
    if team_a_gains < MIN_STARTER_GAIN ∨ team_b_gains < MIN_STARTER_GAIN then 20 else 0
  let total_players := trade.team_a_sends.length + trade.team_b_sends.length
  let risk_penalty₂ : ℚ :=
    if total_players > 4 then ((total_players : ℚ) - 4) * 5 else 0
  let format_bonus : ℚ := if trade.type = "2-for-2" then 5 else 0
  let final_score := base_score + format_bonus - fairness_penalty - (risk_penalty₁ + risk_penalty₂)
  max 0 final_score

/-- The scoring formula as the specification states it (spec §4.4): the
fairness threshold is taken in the same percentage units as
`value_delta_pct`, i.e. 12 rather than 0.12.  Used only to exhibit the
divergence between the source and the spec's formula. -/
def score_trade_specFormula (trade : Trade) (team_a_gains team_b_gains value_delta_pct : ℚ) : ℚ :=
  let base_score := team_a_gains + team_b_gains
  let abs_delta_pct := |value_delta_pct|
  let fairness_penalty :=
    if abs_delta_pct > FAIRNESS_THRESHOLD * 100 then (abs_delta_pct - FAIRNESS_THRESHOLD * 100) * 50
    else abs_delta_pct * 10
  let risk_penalty₁ : ℚ :=
    if team_a_gains < MIN_STARTER_GAIN ∨ team_b_gains < MIN_STARTER_GAIN then 20 else 0
  let total_players := trade.team_a_sends.length + trade.team_b_sends.length
  let risk_penalty₂ : ℚ :=
    if total_players > 4 then ((total_players : ℚ) - 4) * 5 else 0
  let format_bonus : ℚ := if trade.type = "2-for-2" then 5 else 0
  let final_score := base_score + format_bonus - fairness_penalty - (risk_penalty₁ + risk_penalty₂)
  max 0 final_score

/-- src/trade_analyzer.py lines 435-466, `_calculate_trade_side_value`:
sum the value of each sent player, looking the identifier up in the values
table (first matching row) and falling back to the value embedded on the
player record when the identifier is missing/falsy or not found. -/
def calculate_trade_side_value (players : List Player) (player_values : List PRow) : ℚ :=
  players.foldl
    (fun total_value player =>
      if player.sleeper_id ≠ "" then
        match player_values.find? (fun row => row.sleeper_id = player.sleeper_id) with
        | some row => total_value + row.value
        | none => total_value + player.value
      else total_value + player.value)
    0

/-- src/trade_analyzer.py lines 405-432, `check_fairness_constraint`:
returns `(False, 100.0)` when either side's summed value is 0; otherwise
compares the unrounded percentage difference against
`FAIRNESS_THRESHOLD * 100` and returns the percentage rounded to 1 decimal. -/
def check_fairness_constraint (trade : Trade) (player_values : List PRow) : Bool × ℚ :=
  let team_a_value := calculate_trade_side_value trade.team_a_sends player_values
  let team_b_value := calculate_trade_side_value trade.team_b_sends player_values
  if team_a_value = 0 ∨ team_b_value = 0 then (false, 100)
  else
    let higher_value := max team_a_value team_b_value
    let value_difference := |team_a_value - team_b_value|
    let value_delta_pct := value_difference / higher_value * 100
    (decide (value_delta_pct ≤ FAIRNESS_THRESHOLD * 100), round1 value_delta_pct)

/-- src/trade_analyzer.py line 143: the positions considered for needs/surplus. -/
def tradeable_positions : List String := ["QB", "RB", "WR", "TE", "FLEX"]

/-- src/trade_analyzer.py lines 138-156 (per-team body of
`identify_needs_surplus`): positions with delta strictly below −2.0,
sorted most negative first (Python's stable `list.sort`, modelled by the
stable `insertionSort`). -/
def team_needs (deltas : String → ℚ) : List String :=
  (tradeable_positions.filter (fun pos => deltas pos < -2)).insertionSort
    (fun p q => deltas p ≤ deltas q)

/-- src/trade_analyzer.py lines 138-156: positions with delta strictly above
2.0, sorted most positive first. -/
def team_surplus (deltas : String → ℚ) : List String :=
  (tradeable_positions.filter (fun pos => deltas pos > 2)).insertionSort
    (fun p q => deltas q ≤ deltas p)

/-- src/trade_analyzer.py lines 126-164, `identify_needs_surplus`, mapped
over an association list of (team, deltas). -/
def identify_needs_surplus (team_deltas : List (String × (String → ℚ))) :
    List (String × List String × List String) :=
  team_deltas.map (fun td => (td.1, team_needs td.2, team_surplus td.2))

/-- Per-team starter values by position plus the total
(src/trade_analyzer.py lines 33, 60: the `starter_values` dictionary). -/
structure StarterValues where
  QB : ℚ
  RB : ℚ
  WR : ℚ
  TE : ℚ
  FLEX : ℚ
  TOTAL : ℚ
deriving DecidableEq, Repr

/-- The all-zero `StarterValues` returned for empty / unmatched rosters
(src/trade_analyzer.py lines 22, 28). -/
def zero_starter_values : StarterValues := ⟨0, 0, 0, 0, 0, 0⟩

/-- The key used by `sort_values(['position', 'value'], ascending=[True, False])`
(src/trade_analyzer.py line 31): position ascending, then value descending.
(pandas' default sort is not stable, but no output of
`calculate_starter_values` depends on the order of rows with equal keys.) -/
def pos_value_key (a b : PRow) : Prop :=
  a.position < b.position ∨ (a.position = b.position ∧ b.value ≤ a.value)

instance : DecidableRel pos_value_key := fun a b => by
  unfold pos_value_key; infer_instance

/-- src/trade_analyzer.py lines 9-62, `calculate_starter_values`:
filter the values table to the roster, sort by (position asc, value desc),
take the configured number of starters per position, fill FLEX with the best
remaining RB/WR/TE, and set TOTAL to the sum of the five slots. -/
def calculate_starter_values (player_ids : List String) (player_values : List PRow) :
    StarterValues :=
  if player_ids.isEmpty then zero_starter_values
  else
    let team_players := player_values.filter (fun p => p.sleeper_id ∈ player_ids)
    if team_players.isEmpty then zero_starter_values
    else
      let sorted := team_players.insertionSort pos_value_key
      let pos_players := fun (pos : String) => sorted.filter (fun p => p.position = pos)
      let starters := fun (pos : String) => (pos_players pos).take (LINEUP_CONFIG pos)
      let slot := fun (pos : String) => ((starters pos).map (fun p => p.value)).sum
      let qb := slot "QB"
      let rb := slot "RB"
      let wr := slot "WR"
      let te := slot "TE"
      let flex_eligible :=
        (pos_players "RB").drop (LINEUP_CONFIG "RB") ++
        (pos_players "WR").drop (LINEUP_CONFIG "WR") ++
        (pos_players "TE").drop (LINEUP_CONFIG "TE")
      let flex_sorted := flex_eligible.insertionSort (fun a b => b.value ≤ a.value)
      let flex := match flex_sorted with
        | [] => 0
        | best :: _ => best.value
      ⟨qb, rb, wr, te, flex, qb + rb + wr + te + flex⟩

/-- src/trade_analyzer.py lines 255-274, `_get_team_players_by_position`:
bucket the enriched roster by the four player positions, each bucket sorted
value-descending; any other key (`.get(pos, [])`) yields the empty list. -/
def get_team_players_by_position (team_roster : List Player) (pos : String) : List Player :=
  if pos ∈ (["QB", "RB", "WR", "TE"] : List String) then
    (team_roster.filter (fun p => p.position = pos)).insertionSort
      (fun a b => b.value ≤ a.value)
  else []

/-- The 1-for-1 trade dictionary built at src/trade_analyzer.py lines 290-300. -/
def mk_1for1 (team_a team_b a_pos b_pos : String) (a_player b_player : Player) : Trade :=
  { type := "1-for-1", team_a := team_a, team_b := team_b,
    team_a_sends := [a_player], team_b_sends := [b_player],
    positions_addressed := [(team_a, [b_pos]), (team_b, [a_pos])] }

/-- The 2-for-2 trade dictionary built at src/trade_analyzer.py lines 340-350. -/
def mk_2for2 (team_a team_b a_pos1 a_pos2 b_pos1 b_pos2 : String)
    (a_p1 a_p2 b_p1 b_p2 : Player) : Trade :=
  { type := "2-for-2", team_a := team_a, team_b := team_b,
    team_a_sends := [a_p1, a_p2], team_b_sends := [b_p1, b_p2],
    positions_addressed := [(team_a, [b_pos1, b_pos2]), (team_b, [a_pos1, a_pos2])] }

/-- src/trade_analyzer.py lines 277-303, `_generate_1_for_1_trades`:
every combination of a complementary position pair with one of each team's
top-3 players at that position. -/
def generate_1_for_1_trades (team_a : String) (team_a_players : String → List Player)
    (a_positions : List String) (team_b : String) (team_b_players : String → List Player)
    (b_positions : List String) : List Trade :=
  a_positions.flatMap (fun a_pos =>
    b_positions.flatMap (fun b_pos =>
      ((team_a_players a_pos).take 3).flatMap (fun a_player =>
        ((team_b_players b_pos).take 3).map (fun b_player =>
          mk_1for1 team_a team_b a_pos b_pos a_player b_player))))

/-- The index-based double loop `for i, x in enumerate(lst): for y in lst[i:]`
(src/trade_analyzer.py lines 317-320): ordered pairs with repetition allowed. -/
def ord_pairs {α : Type} : List α → List (α × α)
  | [] => []
  | x :: xs => (x :: xs).map (fun y => (x, y)) ++ ord_pairs xs

/-- src/trade_analyzer.py lines 306-353, `_generate_2_for_2_trades`:
for every pair of positions per side (repeats allowed, with the slice `[1:3]`
when a position repeats), every combination of two distinct players per side. -/
def generate_2_for_2_trades (team_a : String) (team_a_players : String → List Player)
    (a_positions : List String) (team_b : String) (team_b_players : String → List Player)
    (b_positions : List String) : List Trade :=
  (ord_pairs a_positions).flatMap (fun ap =>
    (ord_pairs b_positions).flatMap (fun bp =>
      let a_players1 := (team_a_players ap.1).take 2
      let a_players2 :=
        if ap.2 ≠ ap.1 then (team_a_players ap.2).take 2
        else ((team_a_players ap.2).drop 1).take 2
      let b_players1 := (team_b_players bp.1).take 2
      let b_players2 :=
        if bp.2 ≠ bp.1 then (team_b_players bp.2).take 2
        else ((team_b_players bp.2).drop 1).take 2
      a_players1.flatMap (fun a_p1 =>
        a_players2.flatMap (fun a_p2 =>
          if a_p1.sleeper_id = a_p2.sleeper_id then []
          else b_players1.flatMap (fun b_p1 =>
            b_players2.flatMap (fun b_p2 =>
              if b_p1.sleeper_id = b_p2.sleeper_id then []
              else [mk_2for2 team_a team_b ap.1 ap.2 bp.1 bp.2 a_p1 a_p2 b_p1 b_p2]))))))

/-- src/trade_analyzer.py lines 202-252, `_find_complementary_trades`:
intersect A's surplus with B's needs and vice versa; only when both
intersections are non-empty, generate the 1-for-1 and 2-for-2 candidates.
(Python set intersections are modelled as order-preserving filters;
membership and emptiness agree with set semantics.) -/
def find_complementary_trades (team_a : String) (a_needs a_surplus : List String)
    (team_b : String) (b_needs b_surplus : List String)
    (team_a_roster team_b_roster : List Player) : List Trade :=
  let a_to_b_positions := a_surplus.filter (fun pos => pos ∈ b_needs)
  let b_to_a_positions := b_surplus.filter (fun pos => pos ∈ a_needs)
  if a_to_b_positions.isEmpty ∨ b_to_a_positions.isEmpty then []
  else
    generate_1_for_1_trades team_a (get_team_players_by_position team_a_roster)
      a_to_b_positions team_b (get_team_players_by_position team_b_roster) b_to_a_positions
    ++ generate_2_for_2_trades team_a (get_team_players_by_position team_a_roster)
      a_to_b_positions team_b (get_team_players_by_position team_b_roster) b_to_a_positions

/-!
### Mutation model for roster simulation

Python rosters are dictionaries whose `'players'` entry is a shared, mutable
list.  To state the frame property (claim about `_simulate_trade_roster`
never mutating its caller's lists) the heap of player-id lists is made
explicit: a `Store` maps list addresses to their contents, and `.copy()`
allocates a fresh address.
-/

/-- An explicit heap of player-id lists: addresses below `next` are live. -/
structure Store where
  next : Nat
  heap : Nat → List String

/-- Allocate a fresh list cell holding `l`. -/
def store_alloc (s : Store) (l : List String) : Store × Nat :=
  (⟨s.next + 1, fun b => if b = s.next then l else s.heap b⟩, s.next)

/-- A roster dictionary, reduced to the address of its `'players'` list. -/
structure RosterRef where
  players : Nat
deriving DecidableEq, Repr

/-- src/trade_analyzer.py lines 519-547, `_simulate_trade_roster`:
`roster.copy()` is a shallow dict copy (the `'players'` entry still
references the same list), `player_ids = ....copy()` allocates a fresh list,
which is then mutated in place (`remove` of the first occurrence, guarded by
membership and truthiness of the id, then `append`) and stored back into the
copied dict.  The straight-line alloc-then-mutate is modelled as a single
allocation of the final contents; no pre-existing cell is written. -/
def simulate_trade_roster (s : Store) (roster : RosterRef) (removes adds : List Player) :
    Store × RosterRef :=
  let base := s.heap roster.players
  let removed := removes.foldl
    (fun player_ids player =>
      if player.sleeper_id ≠ "" ∧ player.sleeper_id ∈ player_ids then
        player_ids.erase player.sleeper_id
      else player_ids)
    base
  let added := adds.foldl
    (fun player_ids player =>
      if player.sleeper_id ≠ "" then player_ids ++ [player.sleeper_id] else player_ids)
    removed
  let alloc := store_alloc s added
  (alloc.1, ⟨alloc.2⟩)

/-- src/trade_analyzer.py lines 469-516, `calculate_starter_impact`:
look up both rosters (`.get(team, {})`, an absent/empty roster short-circuits
to gains (0, 0)), compute current starter totals, simulate the trade on both
sides (on dict copies sharing the original players lists), recompute totals
and return the rounded gains. -/
def calculate_starter_impact (s : Store) (trade : Trade)
    (team_rosters : String → Option RosterRef) (player_values : List PRow) :
    Store × ℚ × ℚ :=
  match team_rosters trade.team_a, team_rosters trade.team_b with
  | some team_a_roster, some team_b_roster =>
    let team_a_current := calculate_starter_values (s.heap team_a_roster.players) player_values
    let team_b_current := calculate_starter_values (s.heap team_b_roster.players) player_values
    let sim_a := simulate_trade_roster s team_a_roster trade.team_a_sends trade.team_b_sends
    let sim_b := simulate_trade_roster sim_a.1 team_b_roster trade.team_b_sends trade.team_a_sends
    let s₂ := sim_b.1
    let team_a_new := calculate_starter_values (s₂.heap sim_a.2.players) player_values
    let team_b_new := calculate_starter_values (s₂.heap sim_b.2.players) player_values
    (s₂, round1 (team_a_new.TOTAL - team_a_current.TOTAL),
      round1 (team_b_new.TOTAL - team_b_current.TOTAL))
  | _, _ => (s, 0, 0)

/-!
### Trade matcher (src/trade_matcher.py)

The networkx `max_weight_matching` call is an external library primitive;
it is a functional parameter `M` below (`maxcardinality=True` and
`maxcardinality=False` call sites get separate parameters).
-/

/-- A weighted graph edge carrying its trade
(src/trade_matcher.py lines 38-41). -/
structure Edge where
  u : String
  v : String
  weight : ℚ
  trade_id : Nat
  trade_data : Trade
deriving DecidableEq, Repr

/-- The assignment graph: team nodes and one edge per unordered team pair. -/
structure TGraph where
  nodes : List String
  edges : List Edge
deriving DecidableEq, Repr

/-- Set-insertion of a node (node sets are modelled as duplicate-free lists
in first-appearance order; only membership and cardinality are used). -/
def add_node (nodes : List String) (t : String) : List String :=
  if t ∈ nodes then nodes else nodes ++ [t]

/-- Whether an edge connects the unordered pair `{a, b}`. -/
def edge_matches (e : Edge) (a b : String) : Bool :=
  (e.u = a ∧ e.v = b) ∨ (e.u = b ∧ e.v = a)

/-- networkx `add_edge`: on an existing unordered pair the attributes are
overwritten (last write wins, spec §9); otherwise the edge is appended. -/
def add_edge (edges : List Edge) (e : Edge) : List Edge :=
  if edges.any (fun e₀ => edge_matches e₀ e.u e.v) then
    edges.map (fun e₀ => if edge_matches e₀ e.u e.v then e else e₀)
  else edges ++ [e]

/-- src/trade_matcher.py lines 10-43, `build_trade_graph`: one node per team
appearing in any trade, one edge per unordered pair weighted by
`trade_score` and carrying the trade (`trade_id` is the enumeration index). -/
def build_trade_graph (valid_trades : List Trade) : TGraph :=
  let nodes := valid_trades.foldl
    (fun ns t => add_node (add_node ns t.team_a) t.team_b) []
  let edges := valid_trades.enum.foldl
    (fun es it => add_edge es ⟨it.2.team_a, it.2.team_b, it.2.trade_score, it.1, it.2⟩) []
  ⟨nodes, edges⟩

/-- The black-box matching primitive: a set of matched team pairs. -/
abbrev Matcher := TGraph → List (String × String)

/-- The `G[team_a][team_b]['trade_data']` lookup
(src/trade_matcher.py lines 79-80). -/
def find_edge_data (G : TGraph) (a b : String) : Option Trade :=
  (G.edges.find? (fun e => edge_matches e a b)).map (fun e => e.trade_data)

/-- src/trade_matcher.py lines 46-89, `find_perfect_matching`: `None` when
the node count differs from `target_teams`, when it is odd, or when the
matching returned by the library covers a number of pairs other than
`target_teams // 2`; otherwise the trades carried by the matched edges.
A matched pair absent from the graph would raise `KeyError` in Python, which
the surrounding `try/except` turns into `None` — modelled by the final
`all isSome` guard. -/
def find_perfect_matching (M : Matcher) (G : TGraph) (target_teams : Nat) :
    Option (List Trade) :=
  if G.nodes.length ≠ target_teams then none
  else if G.nodes.length % 2 ≠ 0 then none
  else
    let matching := M G
    if matching.length ≠ target_teams / 2 then none
    else
      let datas := matching.map (fun p => find_edge_data G p.1 p.2)
      if datas.all Option.isSome then some (datas.filterMap id) else none

/-- src/trade_matcher.py lines 158-168, `_widen_fairness_threshold`: keep the
trades whose stored `value_delta_pct` is at most `new_threshold * 100`. -/
def widen_fairness_threshold (trades : List Trade) (new_threshold : ℚ) : List Trade :=
  trades.filter (fun t => t.value_delta_pct ≤ new_threshold * 100)

/-- src/trade_matcher.py lines 171-176, `_allow_uneven_trades`: 2-for-1
generation is unimplemented; the input list is returned unchanged. -/
def allow_uneven_trades (trades : List Trade) : List Trade :=
  trades

/-- src/trade_matcher.py lines 179-191, `_lower_starter_gain_threshold`:
keep the trades whose stored gains are both at least `new_threshold`. -/
def lower_starter_gain_threshold (trades : List Trade) (new_threshold : ℚ) : List Trade :=
  trades.filter (fun t => new_threshold ≤ t.team_a_gain ∧ new_threshold ≤ t.team_b_gain)

/-- src/trade_matcher.py lines 194-215, `_find_best_partial_matching`
(the name is shortened here): run the library matcher without the
perfect-cardinality requirement and extract the matched trades; `None` for an
empty trade list or an empty matching.  (The library never returns a pair
outside its input graph, so the extraction simply skips such pairs.) -/
def find_best_maximal_matching (Mpart : Matcher) (trades : List Trade) :
    Option (List Trade) :=
  if trades.isEmpty then none
  else
    let G := build_trade_graph trades
    let matching := Mpart G
    if matching.isEmpty then none
    else some ((matching.map (fun p => find_edge_data G p.1 p.2)).filterMap id)

/-- The repeated block of src/trade_matcher.py lines 108-115 (and 118-125,
128-135, 138-144): skip an empty relaxed list, rebuild the graph, re-attempt
perfect matching, and accept only a truthy (non-`None`, non-empty) result. -/
def attempt_perfect (M : Matcher) (ts : List Trade) : Option (List Trade) :=
  if ts.isEmpty then none
  else
    match find_perfect_matching M (build_trade_graph ts) TOTAL_TEAMS with
    | some r => if r.isEmpty then none else some r
    | none => none

/-- src/trade_matcher.py lines 92-155, `relax_constraints_and_retry`:
the relaxation ladder, in order — fairness 15%, fairness 20%, minimum starter
gain 1.0, uneven trades (a pass-through), then a non-perfect matching as the
last resort — stopping at the first success. -/
def relax_constraints_and_retry (M Mpart : Matcher) (valid_trades : List Trade) :
    Option (List Trade) :=
  match attempt_perfect M (widen_fairness_threshold valid_trades (15 / 100)) with
  | some r => some r
  | none =>
    match attempt_perfect M (widen_fairness_threshold valid_trades (20 / 100)) with
    | some r => some r
    | none =>
      match attempt_perfect M (lower_starter_gain_threshold valid_trades 1) with
      | some r => some r
      | none =>
        match attempt_perfect M (allow_uneven_trades valid_trades) with
        | some r => some r
        | none => find_best_maximal_matching Mpart valid_trades

/-- The team-collision loop of src/trade_matcher.py lines 232-242: walking the
selection, each trade's two teams must be absent from the set of teams already
involved (both are then added). -/
def validate_teams_loop (teams_involved : List String) : List Trade → Bool
  | [] => true
  | t :: rest =>
    if t.team_a ∈ teams_involved ∨ t.team_b ∈ teams_involved then false
    else validate_teams_loop (add_node (add_node teams_involved t.team_a) t.team_b) rest

/-- src/trade_matcher.py lines 218-256, `validate_matching_constraints`:
`False` for an empty selection or when a team appears in more than one trade;
deviations from `MAX_TRADES_PER_WEEK` trades or `TOTAL_TEAMS` coverage are
printed warnings only and do not affect the result. -/
def validate_matching_constraints (selected_trades : List Trade) : Bool :=
  if selected_trades.isEmpty then false
  else validate_teams_loop [] selected_trades

/-- Steps 1-2 of src/trade_matcher.py lines 278-284: the candidate selection
before final validation (perfect matching, falling back to the relaxation
ladder). -/
def selection_candidate (M Mpart : Matcher) (valid_trades : List Trade) :
    Option (List Trade) :=
  match find_perfect_matching M (build_trade_graph valid_trades) TOTAL_TEAMS with
  | some s => some s
  | none => relax_constraints_and_retry M Mpart valid_trades

/-- src/trade_matcher.py lines 259-296, `select_optimal_trades`: empty input
returns `[]`; a falsy candidate selection returns `[]`; a candidate selection
failing `validate_matching_constraints` is discarded (`[]`); otherwise the
selection is returned. -/
def select_optimal_trades (M Mpart : Matcher) (valid_trades : List Trade) : List Trade :=
  if valid_trades.isEmpty then []
  else
    match selection_candidate M Mpart valid_trades with
    | some s => if s.isEmpty then [] else if validate_matching_constraints s then s else []
    | none => []

/-! ### Supporting lemmas -/

/-- Rounding to one decimal preserves non-negativity. -/
lemma round1_nonneg {x : ℚ} (hx : 0 ≤ x) : 0 ≤ round1 x := by
  unfold round1
  have h : (0 : ℤ) ≤ round (10 * x) := by
    rw [round_eq]
    exact Int.floor_nonneg.mpr (by linarith)
  have h10 : (0 : ℚ) < 10 := by norm_num
  exact div_nonneg (by exact_mod_cast h) (le_of_lt h10)

/-- A trade-side sum is non-negative when every embedded player value and
every table value is non-negative. -/
lemma calculate_trade_side_value_nonneg (players : List Player) (player_values : List PRow)
    (hp : ∀ p ∈ players, 0 ≤ p.value) (hr : ∀ row ∈ player_values, 0 ≤ row.value) :
    0 ≤ calculate_trade_side_value players player_values := by
  unfold calculate_trade_side_value
  have key : ∀ (l : List Player) (init : ℚ), (∀ p ∈ l, 0 ≤ p.value) → 0 ≤ init →
      0 ≤ l.foldl
        (fun total_value player =>
          if player.sleeper_id ≠ "" then
            match player_values.find? (fun row => row.sleeper_id = player.sleeper_id) with
            | some row => total_value + row.value
            | none => total_value + player.value
          else total_value + player.value)
        init := by
    intro l
    induction l with
    | nil => intro init _ h0; simpa using h0
    | cons p rest ih =>
      intro init hl h0
      have hpv : 0 ≤ p.value := hl p (List.mem_cons_self p rest)
      have hrest : ∀ q ∈ rest, 0 ≤ q.value := fun q hq => hl q (List.mem_cons_of_mem p hq)
      simp only [List.foldl_cons]
      apply ih _ hrest
      split
      · cases hfind : player_values.find? (fun row => row.sleeper_id = p.sleeper_id) with
        | some row =>
          have hrow : 0 ≤ row.value := hr row (List.mem_of_find?_eq_some hfind)
          simp only [hfind]
          exact add_nonneg h0 hrow
        | none =>
          simp only [hfind]
          exact add_nonneg h0 hpv
      · exact add_nonneg h0 hpv
  exact key players 0 hp le_rfl

/-! ### Claims -/

/-- C1: `score_trade` diverges from the specified scoring formula on trades
that survive validation.  The code compares the percentage `value_delta_pct`
against the raw fraction `FAIRNESS_THRESHOLD = 0.12` instead of against
`FAIRNESS_THRESHOLD * 100 = 12` (the scaling every other use site applies),
so a surviving trade with `value_delta_pct = 5.0` and gains `100.0`/`100.0`
receives the heavy out-of-threshold penalty `(5 − 0.12) × 50 = 244` and
scores `0.0`, where the specified formula gives `200 − 10 × 5 = 150.0`. -/
theorem c1_score_trade_unit_bug :
    score_trade
        { type := "1-for-1", team_a := "A", team_b := "B",
          team_a_sends := [⟨"p1", "QB", 50⟩], team_b_sends := [⟨"p2", "QB", 50⟩] }
        100 100 5 = 0 ∧
    score_trade_specFormula
        { type := "1-for-1", team_a := "A", team_b := "B",
          team_a_sends := [⟨"p1", "QB", 50⟩], team_b_sends := [⟨"p2", "QB", 50⟩] }
        100 100 5 = 150 := by
  constructor
  · simp only [score_trade]
    norm_num [FAIRNESS_THRESHOLD, MIN_STARTER_GAIN]
    rw [if_neg (by decide)]
    norm_num
  · simp only [score_trade_specFormula]
    norm_num [FAIRNESS_THRESHOLD, MIN_STARTER_GAIN]
    rw [if_neg (by decide)]
    norm_num

/-- C6: for every position among QB/RB/WR/TE/FLEX, membership in the needs
list is exactly `delta < −2.0`, membership in the surplus list is exactly
`delta > 2.0`, a delta of exactly ±2.0 lands in neither list, the needs list
is ordered most negative delta first and the surplus list most positive
first. -/
theorem c6_needs_surplus_classification (deltas : String → ℚ) :
    (∀ pos, pos ∈ team_needs deltas ↔ pos ∈ tradeable_positions ∧ deltas pos < -2) ∧
    (∀ pos, pos ∈ team_surplus deltas ↔ pos ∈ tradeable_positions ∧ 2 < deltas pos) ∧
    (∀ pos, deltas pos = -2 ∨ deltas pos = 2 →
      pos ∉ team_needs deltas ∧ pos ∉ team_surplus deltas) ∧
    List.Sorted (fun p q => deltas p ≤ deltas q) (team_needs deltas) ∧
    List.Sorted (fun p q => deltas q ≤ deltas p) (team_surplus deltas) := by
  have hneed : ∀ pos, pos ∈ team_needs deltas ↔ pos ∈ tradeable_positions ∧ deltas pos < -2 := by
    intro pos
    unfold team_needs
    rw [List.mem_insertionSort, List.mem_filter]
    simp
  have hsur : ∀ pos, pos ∈ team_surplus deltas ↔ pos ∈ tradeable_positions ∧ 2 < deltas pos := by
    intro pos
    unfold team_surplus
    rw [List.mem_insertionSort, List.mem_filter]
    simp
  refine ⟨hneed, hsur, ?_, ?_, ?_⟩
  · intro pos h
    constructor
    · intro hmem
      rcases (hneed pos).mp hmem with ⟨-, hlt⟩
      rcases h with h | h <;> rw [h] at hlt <;> linarith
    · intro hmem
      rcases (hsur pos).mp hmem with ⟨-, hlt⟩
      rcases h with h | h <;> rw [h] at hlt <;> linarith
  · unfold team_needs
    haveI : IsTotal String (fun p q => deltas p ≤ deltas q) :=
      ⟨fun a b => le_total (deltas a) (deltas b)⟩
    haveI : IsTrans String (fun p q => deltas p ≤ deltas q) :=
      ⟨fun _ _ _ h₁ h₂ => le_trans h₁ h₂⟩
    exact List.sorted_insertionSort _ _
  · unfold team_surplus
    haveI : IsTotal String (fun p q => deltas q ≤ deltas p) :=
      ⟨fun a b => le_total (deltas b) (deltas a)⟩
    haveI : IsTrans String (fun p q => deltas q ≤ deltas p) :=
      ⟨fun _ _ _ h₁ h₂ => le_trans h₂ h₁⟩
    exact List.sorted_insertionSort _ _

/-- Concrete per-team deltas used to witness the classification theorem. -/
def c6_deltas (pos : String) : ℚ :=
  if pos = "QB" then -5
  else if pos = "RB" then 8
  else if pos = "WR" then -2
  else if pos = "TE" then 2
  else 0

theorem c6_needs_surplus_classification_witness :
    "QB" ∈ team_needs c6_deltas ∧ "RB" ∈ team_surplus c6_deltas ∧
    "WR" ∉ team_needs c6_deltas ∧ "TE" ∉ team_surplus c6_deltas :=
  ⟨((c6_needs_surplus_classification c6_deltas).1 "QB").mpr (by constructor <;> decide),
   ((c6_needs_surplus_classification c6_deltas).2.1 "RB").mpr (by constructor <;> decide),
   ((c6_needs_surplus_classification c6_deltas).2.2.1 "WR" (Or.inl (by decide))).1,
   ((c6_needs_surplus_classification c6_deltas).2.2.1 "TE" (Or.inr (by decide))).2⟩

/-- C7: the `TOTAL` slot of every computed `StarterValues` equals the sum of
the QB, RB, WR, TE and FLEX slots, and a roster with no matched players
(empty, or with only identifiers absent from the values table) yields the
all-zero record rather than an error. -/
theorem c7_starter_values_total (player_ids : List String) (player_values : List PRow) :
    ((calculate_starter_values player_ids player_values).TOTAL =
      (calculate_starter_values player_ids player_values).QB +
      (calculate_starter_values player_ids player_values).RB +
      (calculate_starter_values player_ids player_values).WR +
      (calculate_starter_values player_ids player_values).TE +
      (calculate_starter_values player_ids player_values).FLEX) ∧
    (player_ids = [] → calculate_starter_values player_ids player_values = zero_starter_values) ∧
    ((∀ row ∈ player_values, row.sleeper_id ∉ player_ids) →
      calculate_starter_values player_ids player_values = zero_starter_values) := by
  have shape : calculate_starter_values player_ids player_values = zero_starter_values ∨
      ∃ a b c d e : ℚ, calculate_starter_values player_ids player_values =
        ⟨a, b, c, d, e, a + b + c + d + e⟩ := by
    unfold calculate_starter_values
    split
    · exact Or.inl rfl
    · dsimp only
      split
      · exact Or.inl rfl
      · exact Or.inr ⟨_, _, _, _, _, rfl⟩
  refine ⟨?_, ?_, ?_⟩
  · rcases shape with h | ⟨a, b, c, d, e, h⟩
    · rw [h]; simp [zero_starter_values]
    · rw [h]
  · intro h
    unfold calculate_starter_values
    rw [if_pos (by simp [h])]
  · intro h
    by_cases hids : player_ids.isEmpty
    · unfold calculate_starter_values
      rw [if_pos hids]
    · unfold calculate_starter_values
      rw [if_neg hids, if_pos]
      rw [List.isEmpty_iff, List.filter_eq_nil_iff]
      intro row hrow
      simpa using h row hrow

theorem c7_starter_values_total_witness :
    calculate_starter_values ["421"]
        [⟨"999", "QB", 45⟩, ⟨"998", "RB", 30⟩] = zero_starter_values ∧
    calculate_starter_values [] [⟨"999", "QB", 45⟩] = zero_starter_values :=
  ⟨(c7_starter_values_total ["421"] [⟨"999", "QB", 45⟩, ⟨"998", "RB", 30⟩]).2.2 (by decide),
   (c7_starter_values_total [] [⟨"999", "QB", 45⟩]).2.1 rfl⟩

/-- A trade whose two sides sum to 100 and 87.98 from the embedded player
values (the table is empty, so the fallback path is used): the unrounded
percentage difference is 12.02, which rounds to 12.0. -/
def c5_trade : Trade :=
  { type := "1-for-1", team_a := "A", team_b := "B",
    team_a_sends := [⟨"pa", "QB", 100⟩], team_b_sends := [⟨"pb", "QB", 4399 / 50⟩] }

/-- C5 counterexample: the claim says the gate fails exactly when a side sums
to 0 or `value_delta_pct` — defined there as the rounded percentage —
exceeds 12.  On `c5_trade` both sides are non-zero and the rounded
percentage returned by the gate is 12.0 (not exceeding 12), yet the gate
fails: the code compares the *unrounded* 12.02 against the threshold. -/
theorem c5_fairness_gate_counterexample :
    (check_fairness_constraint c5_trade []).1 = false ∧
    (check_fairness_constraint c5_trade []).2 ≤ 12 ∧
    calculate_trade_side_value c5_trade.team_a_sends [] ≠ 0 ∧
    calculate_trade_side_value c5_trade.team_b_sends [] ≠ 0 := by
  have ha : calculate_trade_side_value c5_trade.team_a_sends [] = 100 := by
    norm_num [calculate_trade_side_value, c5_trade]
  have hb : calculate_trade_side_value c5_trade.team_b_sends [] = 4399 / 50 := by
    norm_num [calculate_trade_side_value, c5_trade]
  have hpct : |(100 : ℚ) - 4399 / 50| / max (100 : ℚ) (4399 / 50) * 100 = 601 / 50 := by
    rw [max_eq_left (by norm_num), abs_of_pos (by norm_num)]
    norm_num
  have hgate : check_fairness_constraint c5_trade [] = (false, round1 (601 / 50)) := by
    unfold check_fairness_constraint
    rw [ha, hb, if_neg (by norm_num)]
    dsimp only
    rw [hpct]
    refine Prod.ext ?_ rfl
    simp only [decide_eq_false_iff_not, FAIRNESS_THRESHOLD]
    norm_num
  have hround : round1 (601 / 50 : ℚ) = 12 := by
    unfold round1
    norm_num [round_eq]
  refine ⟨by rw [hgate], ?_, by rw [ha]; norm_num, by rw [hb]; norm_num⟩
  rw [hgate]
  dsimp only
  rw [hround]

/-- C5 (amended): the gate fails exactly when a side's summed value is 0 or
the *unrounded* percentage `|A − B| / max(A, B) × 100` exceeds 12; the
returned `value_delta_pct` is that percentage rounded to one decimal
(100.0 when a side is 0) and is always ≥ 0; side values are summed from the
valuation table with fallback to the value embedded on the player record. -/
theorem c5_fairness_gate (trade : Trade) (player_values : List PRow)
    (hpa : ∀ p ∈ trade.team_a_sends, 0 ≤ p.value)
    (hpb : ∀ p ∈ trade.team_b_sends, 0 ≤ p.value)
    (hr : ∀ row ∈ player_values, 0 ≤ row.value) :
    ((check_fairness_constraint trade player_values).1 = true ↔
      calculate_trade_side_value trade.team_a_sends player_values ≠ 0 ∧
      calculate_trade_side_value trade.team_b_sends player_values ≠ 0 ∧
      |calculate_trade_side_value trade.team_a_sends player_values -
          calculate_trade_side_value trade.team_b_sends player_values| /
        max (calculate_trade_side_value trade.team_a_sends player_values)
          (calculate_trade_side_value trade.team_b_sends player_values) * 100 ≤ 12) ∧
    0 ≤ (check_fairness_constraint trade player_values).2 ∧
    (calculate_trade_side_value trade.team_a_sends player_values ≠ 0 →
      calculate_trade_side_value trade.team_b_sends player_values ≠ 0 →
      (check_fairness_constraint trade player_values).2 =
        round1 (|calculate_trade_side_value trade.team_a_sends player_values -
            calculate_trade_side_value trade.team_b_sends player_values| /
          max (calculate_trade_side_value trade.team_a_sends player_values)
            (calculate_trade_side_value trade.team_b_sends player_values) * 100)) ∧
    (calculate_trade_side_value trade.team_a_sends player_values = 0 ∨
      calculate_trade_side_value trade.team_b_sends player_values = 0 →
      check_fairness_constraint trade player_values = (false, 100)) := by
  have ha0 : 0 ≤ calculate_trade_side_value trade.team_a_sends player_values :=
    calculate_trade_side_value_nonneg _ _ hpa hr
  have hb0 : 0 ≤ calculate_trade_side_value trade.team_b_sends player_values :=
    calculate_trade_side_value_nonneg _ _ hpb hr
  by_cases hz : calculate_trade_side_value trade.team_a_sends player_values = 0 ∨
      calculate_trade_side_value trade.team_b_sends player_values = 0
  · have hgate : check_fairness_constraint trade player_values = (false, 100) := by
      unfold check_fairness_constraint
      rw [if_pos hz]
    refine ⟨?_, ?_, ?_, fun _ => hgate⟩
    · rw [hgate]
      simp only [Bool.false_eq_true, false_iff]
      rintro ⟨h1, h2, -⟩
      rcases hz with hz | hz
      · exact h1 hz
      · exact h2 hz
    · rw [hgate]; norm_num
    · intro h1 h2
      exact absurd hz (by push_neg; exact ⟨h1, h2⟩)
  · push_neg at hz
    have hgate : check_fairness_constraint trade player_values =
        (decide (|calculate_trade_side_value trade.team_a_sends player_values -
            calculate_trade_side_value trade.team_b_sends player_values| /
          max (calculate_trade_side_value trade.team_a_sends player_values)
            (calculate_trade_side_value trade.team_b_sends player_values) * 100 ≤
            FAIRNESS_THRESHOLD * 100),
          round1 (|calculate_trade_side_value trade.team_a_sends player_values -
            calculate_trade_side_value trade.team_b_sends player_values| /
          max (calculate_trade_side_value trade.team_a_sends player_values)
            (calculate_trade_side_value trade.team_b_sends player_values) * 100)) := by
      unfold check_fairness_constraint
      rw [if_neg (by push_neg; exact hz)]
    have hth : FAIRNESS_THRESHOLD * 100 = 12 := by norm_num [FAIRNESS_THRESHOLD]
    have hmaxpos : 0 < max (calculate_trade_side_value trade.team_a_sends player_values)
        (calculate_trade_side_value trade.team_b_sends player_values) :=
      lt_max_of_lt_left (lt_of_le_of_ne ha0 (Ne.symm hz.1))
    have hpct : 0 ≤ |calculate_trade_side_value trade.team_a_sends player_values -
        calculate_trade_side_value trade.team_b_sends player_values| /
      max (calculate_trade_side_value trade.team_a_sends player_values)
        (calculate_trade_side_value trade.team_b_sends player_values) * 100 := by
      apply mul_nonneg _ (by norm_num)
      exact div_nonneg (abs_nonneg _) (le_of_lt hmaxpos)
    refine ⟨?_, ?_, fun _ _ => by rw [hgate], fun h => absurd h (by push_neg; exact hz)⟩
    · rw [hgate, hth]
      simp only [decide_eq_true_eq]
      constructor
      · intro h; exact ⟨hz.1, hz.2, h⟩
      · rintro ⟨-, -, h⟩; exact h
    · rw [hgate]
      exact round1_nonneg hpct

theorem c5_fairness_gate_witness :
    (check_fairness_constraint
      { type := "1-for-1", team_a := "A", team_b := "B",
        team_a_sends := [⟨"pa", "QB", 45⟩], team_b_sends := [⟨"pb", "QB", 50⟩] } []).1 = true :=
  ((c5_fairness_gate
      { type := "1-for-1", team_a := "A", team_b := "B",
        team_a_sends := [⟨"pa", "QB", 45⟩], team_b_sends := [⟨"pb", "QB", 50⟩] } []
      (by rintro p hp; rw [List.mem_singleton] at hp; subst hp; norm_num)
      (by rintro p hp; rw [List.mem_singleton] at hp; subst hp; norm_num)
      (fun row hrow => absurd hrow (List.not_mem_nil row))).1).mpr
    (by
      have ha : calculate_trade_side_value [(⟨"pa", "QB", 45⟩ : Player)] [] = 45 := by
        norm_num [calculate_trade_side_value]
      have hb : calculate_trade_side_value [(⟨"pb", "QB", 50⟩ : Player)] [] = 50 := by
        norm_num [calculate_trade_side_value]
      refine ⟨by rw [ha]; norm_num, by rw [hb]; norm_num, ?_⟩
      rw [ha, hb, max_eq_right (by norm_num), abs_of_nonpos (by norm_num)]
      norm_num)

/-- C9: `find_perfect_matching` answers "no solution" (`none`) — it never
throws — whenever the node count differs from the target team count, the
node count is odd, or the library matching covers fewer than
`target_teams / 2` pairs. -/
theorem c9_find_perfect_matching_no_throw (M : Matcher) (G : TGraph) (target_teams : Nat) :
    (G.nodes.length ≠ target_teams → find_perfect_matching M G target_teams = none) ∧
    (G.nodes.length % 2 = 1 → find_perfect_matching M G target_teams = none) ∧
    ((M G).length < target_teams / 2 → find_perfect_matching M G target_teams = none) := by
  refine ⟨?_, ?_, ?_⟩
  · intro h
    unfold find_perfect_matching
    rw [if_pos h]
  · intro h
    unfold find_perfect_matching
    by_cases hc : G.nodes.length ≠ target_teams
    · rw [if_pos hc]
    · rw [if_neg hc, if_pos (by omega)]
  · intro h
    unfold find_perfect_matching
    by_cases hc : G.nodes.length ≠ target_teams
    · rw [if_pos hc]
    · rw [if_neg hc]
      by_cases hodd : G.nodes.length % 2 ≠ 0
      · rw [if_pos hodd]
      · rw [if_neg hodd, if_pos (by omega)]

theorem c9_find_perfect_matching_no_throw_witness :
    find_perfect_matching (fun _ => []) ⟨["A", "B", "C"], []⟩ 12 = none ∧
    find_perfect_matching (fun _ => []) ⟨["A", "B", "C"], []⟩ 3 = none ∧
    find_perfect_matching (fun _ => []) ⟨["A", "B", "C", "D"], []⟩ 4 = none :=
  ⟨(c9_find_perfect_matching_no_throw (fun _ => []) ⟨["A", "B", "C"], []⟩ 12).1 (by decide),
   (c9_find_perfect_matching_no_throw (fun _ => []) ⟨["A", "B", "C"], []⟩ 3).2.1 (by decide),
   (c9_find_perfect_matching_no_throw (fun _ => []) ⟨["A", "B", "C", "D"], []⟩ 4).2.2 (by decide)⟩

/-- C3: on a list in which every trade already satisfies the default
validation thresholds (`value_delta_pct ≤ 12.0`, both gains ≥ 3.0 — the
shape of every `filter_valid_trades` output), the relaxed fairness passes at
15% and 20% and the lowered starter-gain pass at 1.0 all return the list
unchanged, so relaxation strategies 1-3 rebuild exactly the original graph
and can never admit a trade rejected during validation. -/
theorem c3_relaxations_fix_validated_trades (trades : List Trade)
    (h : ∀ t ∈ trades, t.value_delta_pct ≤ 12 ∧ 3 ≤ t.team_a_gain ∧ 3 ≤ t.team_b_gain) :
    widen_fairness_threshold trades (15 / 100) = trades ∧
    widen_fairness_threshold trades (20 / 100) = trades ∧
    lower_starter_gain_threshold trades 1 = trades ∧
    build_trade_graph (widen_fairness_threshold trades (15 / 100)) = build_trade_graph trades ∧
    build_trade_graph (widen_fairness_threshold trades (20 / 100)) = build_trade_graph trades ∧
    build_trade_graph (lower_starter_gain_threshold trades 1) = build_trade_graph trades := by
  have h15 : widen_fairness_threshold trades (15 / 100) = trades := by
    unfold widen_fairness_threshold
    rw [List.filter_eq_self]
    intro t ht
    have := (h t ht).1
    simp only [decide_eq_true_eq]
    linarith
  have h20 : widen_fairness_threshold trades (20 / 100) = trades := by
    unfold widen_fairness_threshold
    rw [List.filter_eq_self]
    intro t ht
    have := (h t ht).1
    simp only [decide_eq_true_eq]
    linarith
  have h1 : lower_starter_gain_threshold trades 1 = trades := by
    unfold lower_starter_gain_threshold
    rw [List.filter_eq_self]
    intro t ht
    have ha := (h t ht).2.1
    have hb := (h t ht).2.2
    simp only [decide_eq_true_eq]
    constructor <;> linarith
  exact ⟨h15, h20, h1, by rw [h15], by rw [h20], by rw [h1]⟩

theorem c3_relaxations_fix_validated_trades_witness :
    widen_fairness_threshold
      [{ type := "1-for-1", team_a := "A", team_b := "B", team_a_sends := [⟨"pa", "QB", 45⟩],
         team_b_sends := [⟨"pb", "QB", 50⟩], team_a_gain := 4, team_b_gain := 5,
         value_delta_pct := 10, trade_score := 9 }] (15 / 100) =
      [{ type := "1-for-1", team_a := "A", team_b := "B", team_a_sends := [⟨"pa", "QB", 45⟩],
         team_b_sends := [⟨"pb", "QB", 50⟩], team_a_gain := 4, team_b_gain := 5,
         value_delta_pct := 10, trade_score := 9 }] :=
  (c3_relaxations_fix_validated_trades
    [{ type := "1-for-1", team_a := "A", team_b := "B", team_a_sends := [⟨"pa", "QB", 45⟩],
       team_b_sends := [⟨"pb", "QB", 50⟩], team_a_gain := 4, team_b_gain := 5,
       value_delta_pct := 10, trade_score := 9 }]
    (by intro t ht; rw [List.mem_singleton] at ht; subst ht
        refine ⟨by norm_num, by norm_num, by norm_num⟩)).1

/-- An edge connecting a pair survives `add_edge`: replacement only swaps in
the new edge for the same unordered pair. -/
lemma mem_add_edge_of (es : List Edge) (e' : Edge) (a b : String)
    (h : ∃ e ∈ es, edge_matches e a b = true) :
    ∃ e ∈ add_edge es e', edge_matches e a b = true := by
  rcases h with ⟨e, he, hm⟩
  unfold add_edge
  split
  · by_cases hr : edge_matches e e'.u e'.v = true
    · refine ⟨e', ?_, ?_⟩
      · rcases List.mem_map.mp (List.mem_map_of_mem
          (fun e₀ => if edge_matches e₀ e'.u e'.v = true then e' else e₀) he) with ⟨-, -, -⟩
        exact List.mem_map.mpr ⟨e, he, by rw [if_pos hr]⟩
      · simp only [edge_matches, decide_eq_true_eq] at hm hr ⊢
        rcases hm with ⟨h1, h2⟩ | ⟨h1, h2⟩ <;> rcases hr with ⟨h3, h4⟩ | ⟨h3, h4⟩ <;>
          subst h1 <;> subst h2 <;>
          first
            | exact Or.inl ⟨h3.symm, h4.symm⟩
            | exact Or.inr ⟨h3.symm, h4.symm⟩
            | exact Or.inr ⟨h4.symm, h3.symm⟩
            | exact Or.inl ⟨h4.symm, h3.symm⟩
    · exact ⟨e, List.mem_map.mpr ⟨e, he, by rw [if_neg hr]⟩, hm⟩
  · exact ⟨e, List.mem_append.mpr (Or.inl he), hm⟩

/-- After `add_edge es e'` some edge connects `e'`'s own pair. -/
lemma add_edge_self (es : List Edge) (e' : Edge) :
    ∃ e ∈ add_edge es e', edge_matches e e'.u e'.v = true := by
  have hself : edge_matches e' e'.u e'.v = true := by
    simp [edge_matches]
  unfold add_edge
  split
  · rename_i hany
    rcases List.any_eq_true.mp hany with ⟨e₀, he₀, hm⟩
    exact ⟨e', List.mem_map.mpr ⟨e₀, he₀, by rw [if_pos hm]⟩, hself⟩
  · exact ⟨e', List.mem_append.mpr (Or.inr (List.mem_singleton.mpr rfl)), hself⟩

/-- Fold invariant for the edge-construction loop of `build_trade_graph`. -/
lemma fold_add_edge_exists (l : List (Nat × Trade)) (a b : String) :
    ∀ es : List Edge,
      ((∃ e ∈ es, edge_matches e a b = true) ∨
        (∃ it ∈ l, it.2.team_a = a ∧ it.2.team_b = b)) →
      ∃ e ∈ l.foldl
          (fun es it => add_edge es ⟨it.2.team_a, it.2.team_b, it.2.trade_score, it.1, it.2⟩) es,
        edge_matches e a b = true := by
  induction l with
  | nil =>
    intro es h
    rcases h with h | ⟨it, hit, -⟩
    · simpa using h
    · cases hit
  | cons it l ih =>
    intro es h
    simp only [List.foldl_cons]
    apply ih
    rcases h with h | ⟨it', hit', hab⟩
    · exact Or.inl (mem_add_edge_of es _ a b h)
    · rcases List.mem_cons.mp hit' with heq | hmem
      · subst heq
        left
        have hs := add_edge_self es ⟨it'.2.team_a, it'.2.team_b, it'.2.trade_score, it'.1, it'.2⟩
        rcases hs with ⟨e, he, hm⟩
        refine ⟨e, he, ?_⟩
        rw [← hab.1, ← hab.2]
        exact hm
      · exact Or.inr ⟨it', hmem, hab⟩

/-- Every trade in the list has an edge for its team pair in the built graph. -/
lemma build_trade_graph_edge_exists (ts : List Trade) (t : Trade) (ht : t ∈ ts) :
    ∃ e ∈ (build_trade_graph ts).edges, edge_matches e t.team_a t.team_b = true := by
  have henum : ∃ it ∈ ts.enum, it.2 = t := by
    have : t ∈ ts.enum.map Prod.snd := by rw [List.enum_map_snd]; exact ht
    rcases List.mem_map.mp this with ⟨it, hit, heq⟩
    exact ⟨it, hit, heq⟩
  rcases henum with ⟨it, hit, heq⟩
  exact fold_add_edge_exists ts.enum t.team_a t.team_b []
    (Or.inr ⟨it, hit, by rw [heq], by rw [heq]⟩)

/-- C2: when perfect matching fails, the relaxation ladder runs in the fixed
order — fairness 15%, fairness 20%, starter gain 1.0, uneven trades, then a
non-perfect matching — rebuilding the graph and re-attempting a perfect
matching after each step and stopping at the first success; in particular the
15% pass keeps every trade with `value_delta_pct` between 12 and 15, so such
a trade is admitted to the graph rebuilt at step 1 (its team pair gets an
edge there). -/
theorem c2_relaxation_ladder (M Mpart : Matcher) (valid_trades : List Trade) :
    (∀ t ∈ valid_trades, 12 < t.value_delta_pct → t.value_delta_pct ≤ 15 →
      t ∈ widen_fairness_threshold valid_trades (15 / 100) ∧
      ∃ e ∈ (build_trade_graph (widen_fairness_threshold valid_trades (15 / 100))).edges,
        edge_matches e t.team_a t.team_b = true) ∧
    (∀ r, attempt_perfect M (widen_fairness_threshold valid_trades (15 / 100)) = some r →
      relax_constraints_and_retry M Mpart valid_trades = some r) ∧
    (attempt_perfect M (widen_fairness_threshold valid_trades (15 / 100)) = none →
      ∀ r, attempt_perfect M (widen_fairness_threshold valid_trades (20 / 100)) = some r →
      relax_constraints_and_retry M Mpart valid_trades = some r) ∧
    (attempt_perfect M (widen_fairness_threshold valid_trades (15 / 100)) = none →
      attempt_perfect M (widen_fairness_threshold valid_trades (20 / 100)) = none →
      ∀ r, attempt_perfect M (lower_starter_gain_threshold valid_trades 1) = some r →
      relax_constraints_and_retry M Mpart valid_trades = some r) ∧
    (attempt_perfect M (widen_fairness_threshold valid_trades (15 / 100)) = none →
      attempt_perfect M (widen_fairness_threshold valid_trades (20 / 100)) = none →
      attempt_perfect M (lower_starter_gain_threshold valid_trades 1) = none →
      ∀ r, attempt_perfect M (allow_uneven_trades valid_trades) = some r →
      relax_constraints_and_retry M Mpart valid_trades = some r) ∧
    (attempt_perfect M (widen_fairness_threshold valid_trades (15 / 100)) = none →
      attempt_perfect M (widen_fairness_threshold valid_trades (20 / 100)) = none →
      attempt_perfect M (lower_starter_gain_threshold valid_trades 1) = none →
      attempt_perfect M (allow_uneven_trades valid_trades) = none →
      relax_constraints_and_retry M Mpart valid_trades =
        find_best_maximal_matching Mpart valid_trades) := by
  refine ⟨?_, ?_, ?_, ?_, ?_, ?_⟩
  · intro t ht h12 h15
    have hmem : t ∈ widen_fairness_threshold valid_trades (15 / 100) := by
      unfold widen_fairness_threshold
      refine List.mem_filter.mpr ⟨ht, ?_⟩
      simp only [decide_eq_true_eq]
      linarith
    exact ⟨hmem, build_trade_graph_edge_exists _ t hmem⟩
  · intro r h1
    unfold relax_constraints_and_retry
    rw [h1]
  · intro h1 r h2
    unfold relax_constraints_and_retry
    rw [h1, h2]
  · intro h1 h2 r h3
    unfold relax_constraints_and_retry
    rw [h1, h2, h3]
  · intro h1 h2 h3 r h4
    unfold relax_constraints_and_retry
    rw [h1, h2, h3, h4]
  · intro h1 h2 h3 h4
    unfold relax_constraints_and_retry
    rw [h1, h2, h3, h4]

/-- A validated trade with `value_delta_pct = 13` (between 12% and 15%). -/
def c2_trade : Trade :=
  { type := "1-for-1", team_a := "A", team_b := "B",
    team_a_sends := [⟨"pa", "QB", 45⟩], team_b_sends := [⟨"pb", "QB", 50⟩],
    team_a_gain := 5, team_b_gain := 5, value_delta_pct := 13, trade_score := 9 }

theorem c2_relaxation_ladder_witness :
    relax_constraints_and_retry (fun _ => []) (fun _ => [("A", "B")]) [c2_trade] =
      some [c2_trade] ∧
    c2_trade ∈ widen_fairness_threshold [c2_trade] (15 / 100) := by
  have h := c2_relaxation_ladder (fun _ => []) (fun _ => [("A", "B")]) [c2_trade]
  have hw15 : widen_fairness_threshold [c2_trade] (15 / 100) = [c2_trade] := by
    rw [widen_fairness_threshold, List.filter_eq_self]
    rintro t ht
    rw [List.mem_singleton] at ht
    subst ht
    simp only [decide_eq_true_eq]
    norm_num [c2_trade]
  have hw20 : widen_fairness_threshold [c2_trade] (20 / 100) = [c2_trade] := by
    rw [widen_fairness_threshold, List.filter_eq_self]
    rintro t ht
    rw [List.mem_singleton] at ht
    subst ht
    simp only [decide_eq_true_eq]
    norm_num [c2_trade]
  have hl1 : lower_starter_gain_threshold [c2_trade] 1 = [c2_trade] := by
    rw [lower_starter_gain_threshold, List.filter_eq_self]
    rintro t ht
    rw [List.mem_singleton] at ht
    subst ht
    simp only [decide_eq_true_eq]
    norm_num [c2_trade]
  have h1 : attempt_perfect (fun _ => []) (widen_fairness_threshold [c2_trade] (15 / 100)) =
      none := by rw [hw15]; decide
  have h2 : attempt_perfect (fun _ => []) (widen_fairness_threshold [c2_trade] (20 / 100)) =
      none := by rw [hw20]; decide
  have h3 : attempt_perfect (fun _ => []) (lower_starter_gain_threshold [c2_trade] 1) =
      none := by rw [hl1]; decide
  have h4 : attempt_perfect (fun _ => []) (allow_uneven_trades [c2_trade]) = none := by decide
  refine ⟨(h.2.2.2.2.2 h1 h2 h3 h4).trans (by decide), ?_⟩
  exact (h.1 c2_trade (List.mem_singleton.mpr rfl) (by norm_num [c2_trade])
    (by norm_num [c2_trade])).1

/-- Two trades touch four pairwise-different teams (the relation checked by
the collision loop of `validate_matching_constraints`). -/
def teams_disjoint (s t : Trade) : Prop :=
  t.team_a ≠ s.team_a ∧ t.team_a ≠ s.team_b ∧ t.team_b ≠ s.team_a ∧ t.team_b ≠ s.team_b

instance : DecidableRel teams_disjoint := fun s t => by
  unfold teams_disjoint; infer_instance

/-- The multiset of team identifiers across a selection. -/
def selection_teams (ts : List Trade) : List String :=
  ts.flatMap (fun t => [t.team_a, t.team_b])

lemma mem_add_node (ns : List String) (t x : String) :
    x ∈ add_node ns t ↔ x ∈ ns ∨ x = t := by
  unfold add_node
  split
  · rename_i hmem
    constructor
    · exact Or.inl
    · rintro (h | rfl)
      · exact h
      · exact hmem
  · simp [List.mem_append]

lemma validate_teams_loop_iff (ts : List Trade) : ∀ seen : List String,
    validate_teams_loop seen ts = true ↔
      ((∀ t ∈ ts, t.team_a ∉ seen ∧ t.team_b ∉ seen) ∧ List.Pairwise teams_disjoint ts) := by
  induction ts with
  | nil =>
    intro seen
    simp [validate_teams_loop]
  | cons t rest ih =>
    intro seen
    unfold validate_teams_loop
    by_cases hg : t.team_a ∈ seen ∨ t.team_b ∈ seen
    · rw [if_pos hg]
      simp only [Bool.false_eq_true, false_iff, not_and]
      intro hall
      rcases hg with hg | hg
      · exact absurd hg ((hall t (List.mem_cons_self t rest)).1)
      · exact absurd hg ((hall t (List.mem_cons_self t rest)).2)
    · rw [if_neg hg]
      push_neg at hg
      rw [ih]
      constructor
      · rintro ⟨hseen, hpw⟩
        have hteams : ∀ u ∈ rest,
            (u.team_a ∉ seen ∧ u.team_a ≠ t.team_a ∧ u.team_a ≠ t.team_b) ∧
            (u.team_b ∉ seen ∧ u.team_b ≠ t.team_a ∧ u.team_b ≠ t.team_b) := by
          intro u hu
          have h₁ := (hseen u hu).1
          have h₂ := (hseen u hu).2
          rw [mem_add_node, mem_add_node] at h₁ h₂
          push_neg at h₁ h₂
          exact ⟨⟨h₁.1.1, h₁.1.2, h₁.2⟩, ⟨h₂.1.1, h₂.1.2, h₂.2⟩⟩
        refine ⟨?_, ?_⟩
        · intro u hu
          rcases List.mem_cons.mp hu with rfl | hu'
          · exact ⟨hg.1, hg.2⟩
          · exact ⟨(hteams u hu').1.1, (hteams u hu').2.1⟩
        · rw [List.pairwise_cons]
          refine ⟨?_, hpw⟩
          intro u hu
          exact ⟨(hteams u hu).1.2.1, (hteams u hu).1.2.2,
            (hteams u hu).2.2.1, (hteams u hu).2.2.2⟩
      · rintro ⟨hall, hpw⟩
        rw [List.pairwise_cons] at hpw
        refine ⟨?_, hpw.2⟩
        intro u hu
        have huseen := hall u (List.mem_cons_of_mem t hu)
        have hud := hpw.1 u hu
        constructor
        · rw [mem_add_node, mem_add_node]
          push_neg
          exact ⟨⟨huseen.1, hud.1⟩, hud.2.1⟩
        · rw [mem_add_node, mem_add_node]
          push_neg
          exact ⟨⟨huseen.2, hud.2.2.1⟩, hud.2.2.2⟩

/-- `validate_matching_constraints` succeeds exactly on a non-empty selection
whose trades touch pairwise-disjoint team pairs; trade count and team
coverage do not enter the result. -/
lemma validate_matching_constraints_iff (ts : List Trade) :
    validate_matching_constraints ts = true ↔ ts ≠ [] ∧ List.Pairwise teams_disjoint ts := by
  unfold validate_matching_constraints
  split
  · rename_i hempty
    rw [List.isEmpty_iff] at hempty
    subst hempty
    simp
  · rename_i hempty
    rw [List.isEmpty_iff] at hempty
    rw [validate_teams_loop_iff]
    simp [hempty]

lemma mem_selection_teams (ts : List Trade) (x : String) :
    x ∈ selection_teams ts ↔ ∃ u ∈ ts, x = u.team_a ∨ x = u.team_b := by
  unfold selection_teams
  rw [List.mem_flatMap]
  constructor
  · rintro ⟨u, hu, hx⟩
    rcases List.mem_cons.mp hx with h | h
    · exact ⟨u, hu, Or.inl h⟩
    · exact ⟨u, hu, Or.inr (List.mem_singleton.mp h)⟩
  · rintro ⟨u, hu, h | h⟩
    · exact ⟨u, hu, by rw [h]; exact List.mem_cons_self _ _⟩
    · exact ⟨u, hu, by rw [h]; exact List.mem_cons_of_mem _ (List.mem_singleton.mpr rfl)⟩

/-- A pairwise team-disjoint selection of trades with two distinct teams each
has a duplicate-free team multiset. -/
lemma selection_teams_nodup (ts : List Trade) (hab : ∀ t ∈ ts, t.team_a ≠ t.team_b)
    (hpw : List.Pairwise teams_disjoint ts) : (selection_teams ts).Nodup := by
  induction ts with
  | nil => simp [selection_teams]
  | cons t rest ih =>
    rw [List.pairwise_cons] at hpw
    have hrest : (selection_teams rest).Nodup :=
      ih (fun u hu => hab u (List.mem_cons_of_mem t hu)) hpw.2
    have hsel : selection_teams (t :: rest) =
        t.team_a :: t.team_b :: selection_teams rest := by
      simp [selection_teams]
    rw [hsel]
    refine List.nodup_cons.mpr ⟨?_, List.nodup_cons.mpr ⟨?_, hrest⟩⟩
    · intro hmem
      rcases List.mem_cons.mp hmem with h | h
      · exact hab t (List.mem_cons_self t rest) h
      · rcases (mem_selection_teams rest t.team_a).mp h with ⟨u, hu, h | h⟩
        · exact (hpw.1 u hu).1 h.symm
        · exact (hpw.1 u hu).2.2.1 h.symm
    · intro hmem
      rcases (mem_selection_teams rest t.team_b).mp hmem with ⟨u, hu, h | h⟩
      · exact (hpw.1 u hu).2.1 h.symm
      · exact (hpw.1 u hu).2.2.2 h.symm

/-- `add_edge` produces no edge beyond the old ones and the new one. -/
lemma mem_of_add_edge (es : List Edge) (e' e : Edge) (h : e ∈ add_edge es e') :
    e ∈ es ∨ e = e' := by
  unfold add_edge at h
  split at h
  · rcases List.mem_map.mp h with ⟨e₀, he₀, heq⟩
    by_cases hm : edge_matches e₀ e'.u e'.v = true
    · rw [if_pos hm] at heq
      exact Or.inr heq.symm
    · rw [if_neg hm] at heq
      exact Or.inl (heq ▸ he₀)
  · rcases List.mem_append.mp h with h | h
    · exact Or.inl h
    · exact Or.inr (List.mem_singleton.mp h)

/-- Every edge of the built graph carries a trade from the input list. -/
lemma build_trade_graph_edge_mem (ts : List Trade) :
    ∀ e ∈ (build_trade_graph ts).edges, e.trade_data ∈ ts := by
  have aux : ∀ (l : List (Nat × Trade)) (es : List Edge),
      (∀ e ∈ es, e.trade_data ∈ ts) → (∀ it ∈ l, it.2 ∈ ts) →
      ∀ e ∈ l.foldl
        (fun es it => add_edge es ⟨it.2.team_a, it.2.team_b, it.2.trade_score, it.1, it.2⟩) es,
        e.trade_data ∈ ts := by
    intro l
    induction l with
    | nil => intro es hes _ e he; exact hes e he
    | cons it l ih =>
      intro es hes hl e he
      simp only [List.foldl_cons] at he
      refine ih _ ?_ (fun it' hit' => hl it' (List.mem_cons_of_mem it hit')) e he
      intro e₀ he₀
      rcases mem_of_add_edge es _ e₀ he₀ with h | h
      · exact hes e₀ h
      · rw [h]
        exact hl it (List.mem_cons_self it l)
  intro e he
  refine aux ts.enum [] (by intro e h; cases h) ?_ e he
  intro it hit
  have : it.2 ∈ ts.enum.map Prod.snd := List.mem_map_of_mem Prod.snd hit
  rwa [List.enum_map_snd] at this

lemma find_edge_data_mem (ts : List Trade) (a b : String) (t : Trade)
    (h : find_edge_data (build_trade_graph ts) a b = some t) : t ∈ ts := by
  unfold find_edge_data at h
  rcases Option.map_eq_some'.mp h with ⟨e, he, heq⟩
  rw [← heq]
  exact build_trade_graph_edge_mem ts e (List.mem_of_find?_eq_some he)

/-- The trades selected by a perfect matching on a built graph come from the
input list. -/
lemma find_perfect_matching_subset (M : Matcher) (ts : List Trade) (n : Nat)
    (s : List Trade) (h : find_perfect_matching M (build_trade_graph ts) n = some s) :
    ∀ t ∈ s, t ∈ ts := by
  unfold find_perfect_matching at h
  split at h
  · cases h
  · split at h
    · cases h
    · dsimp only at h
      split at h
      · cases h
      · split at h
        · rcases Option.some.inj h with rfl
          intro t ht
          rcases List.mem_filterMap.mp ht with ⟨o, ho, hid⟩
          rcases List.mem_map.mp ho with ⟨p, -, rfl⟩
          exact find_edge_data_mem ts p.1 p.2 t hid
        · cases h

lemma attempt_perfect_subset (M : Matcher) (ts s : List Trade)
    (h : attempt_perfect M ts = some s) : ∀ t ∈ s, t ∈ ts := by
  unfold attempt_perfect at h
  split at h
  · cases h
  · cases hfind : find_perfect_matching M (build_trade_graph ts) TOTAL_TEAMS with
    | some r =>
      simp only [hfind] at h
      split at h
      · cases h
      · have hsub := find_perfect_matching_subset M ts TOTAL_TEAMS r hfind
        rwa [Option.some.inj h] at hsub
    | none =>
      simp only [hfind] at h
      exact Option.noConfusion h

lemma find_best_maximal_matching_subset (Mpart : Matcher) (ts s : List Trade)
    (h : find_best_maximal_matching Mpart ts = some s) : ∀ t ∈ s, t ∈ ts := by
  unfold find_best_maximal_matching at h
  split at h
  · cases h
  · dsimp only at h
    split at h
    · cases h
    · rcases Option.some.inj h with rfl
      intro t ht
      rcases List.mem_filterMap.mp ht with ⟨o, ho, hid⟩
      rcases List.mem_map.mp ho with ⟨p, -, rfl⟩
      exact find_edge_data_mem ts p.1 p.2 t hid

lemma widen_fairness_threshold_subset (ts : List Trade) (θ : ℚ) (t : Trade)
    (h : t ∈ widen_fairness_threshold ts θ) : t ∈ ts :=
  (List.mem_filter.mp h).1

lemma lower_starter_gain_threshold_subset (ts : List Trade) (θ : ℚ) (t : Trade)
    (h : t ∈ lower_starter_gain_threshold ts θ) : t ∈ ts :=
  (List.mem_filter.mp h).1

lemma relax_constraints_and_retry_subset (M Mpart : Matcher) (ts s : List Trade)
    (h : relax_constraints_and_retry M Mpart ts = some s) : ∀ t ∈ s, t ∈ ts := by
  unfold relax_constraints_and_retry at h
  cases h1 : attempt_perfect M (widen_fairness_threshold ts (15 / 100)) with
  | some r =>
    rw [h1] at h
    rcases Option.some.inj h with rfl
    exact fun t ht => widen_fairness_threshold_subset ts _ t
      (attempt_perfect_subset M _ r h1 t ht)
  | none =>
  rw [h1] at h
  cases h2 : attempt_perfect M (widen_fairness_threshold ts (20 / 100)) with
  | some r =>
    rw [h2] at h
    rcases Option.some.inj h with rfl
    exact fun t ht => widen_fairness_threshold_subset ts _ t
      (attempt_perfect_subset M _ r h2 t ht)
  | none =>
  rw [h2] at h
  cases h3 : attempt_perfect M (lower_starter_gain_threshold ts 1) with
  | some r =>
    rw [h3] at h
    rcases Option.some.inj h with rfl
    exact fun t ht => lower_starter_gain_threshold_subset ts _ t
      (attempt_perfect_subset M _ r h3 t ht)
  | none =>
  rw [h3] at h
  cases h4 : attempt_perfect M (allow_uneven_trades ts) with
  | some r =>
    rw [h4] at h
    rcases Option.some.inj h with rfl
    exact fun t ht => attempt_perfect_subset M _ r h4 t ht
  | none =>
  rw [h4] at h
  exact find_best_maximal_matching_subset Mpart ts s h

lemma selection_candidate_subset (M Mpart : Matcher) (ts s : List Trade)
    (h : selection_candidate M Mpart ts = some s) : ∀ t ∈ s, t ∈ ts := by
  unfold selection_candidate at h
  cases hp : find_perfect_matching M (build_trade_graph ts) TOTAL_TEAMS with
  | some r =>
    rw [hp] at h
    have hsub := find_perfect_matching_subset M ts TOTAL_TEAMS r hp
    rwa [Option.some.inj h] at hsub
  | none =>
    rw [hp] at h
    exact relax_constraints_and_retry_subset M Mpart ts s h

/-- C4: the final selection never repeats a team (its team multiset is
duplicate-free); a candidate selection in which a team appears in more than
one trade is discarded and `[]` returned; deviations from the expected trade
count or team coverage never cause a discard — validation succeeds on any
non-empty pairwise team-disjoint selection. -/
theorem c4_selection_no_duplicate_teams (M Mpart : Matcher) (valid_trades : List Trade)
    (hab : ∀ t ∈ valid_trades, t.team_a ≠ t.team_b) :
    (selection_teams (select_optimal_trades M Mpart valid_trades)).Nodup ∧
    (∀ s, selection_candidate M Mpart valid_trades = some s → s ≠ [] →
      ¬ List.Pairwise teams_disjoint s → select_optimal_trades M Mpart valid_trades = []) ∧
    (∀ s : List Trade, s ≠ [] →
      (validate_matching_constraints s = true ↔ List.Pairwise teams_disjoint s)) := by
  have hchar : ∀ s : List Trade, s ≠ [] →
      (validate_matching_constraints s = true ↔ List.Pairwise teams_disjoint s) := by
    intro s hs
    rw [validate_matching_constraints_iff]
    exact ⟨fun h => h.2, fun h => ⟨hs, h⟩⟩
  refine ⟨?_, ?_, hchar⟩
  · unfold select_optimal_trades
    split
    · simp [selection_teams]
    · cases hc : selection_candidate M Mpart valid_trades with
      | none => simp [selection_teams]
      | some s =>
        dsimp only
        by_cases hse : s.isEmpty = true
        · rw [if_pos hse]
          simp [selection_teams]
        · rw [if_neg hse]
          by_cases hv : validate_matching_constraints s = true
          · rw [if_pos hv]
            have hpw := (validate_matching_constraints_iff s).mp hv
            exact selection_teams_nodup s
              (fun t ht => hab t (selection_candidate_subset M Mpart valid_trades s hc t ht))
              hpw.2
          · rw [if_neg hv]
            simp [selection_teams]
  · intro s hc hs hnpw
    unfold select_optimal_trades
    split
    · rfl
    · rw [hc]
      dsimp only
      have hv : validate_matching_constraints s ≠ true :=
        fun h => hnpw ((validate_matching_constraints_iff s).mp h).2
      rw [if_neg (fun h => hs (List.isEmpty_iff.mp h)), if_neg hv]

/-- A validated trade between two distinct teams, used to witness C4. -/
def c4_trade : Trade :=
  { type := "1-for-1", team_a := "A", team_b := "B",
    team_a_sends := [⟨"pa", "QB", 45⟩], team_b_sends := [⟨"pb", "QB", 50⟩],
    team_a_gain := 5, team_b_gain := 5, value_delta_pct := 10, trade_score := 9 }

theorem c4_selection_no_duplicate_teams_witness :
    (selection_teams
      (select_optimal_trades (fun _ => []) (fun _ => [("A", "B")]) [c4_trade])).Nodup ∧
    validate_matching_constraints [c4_trade, c4_trade] ≠ true := by
  have h := c4_selection_no_duplicate_teams (fun _ => []) (fun _ => [("A", "B")]) [c4_trade]
    (by rintro t ht; rw [List.mem_singleton] at ht; subst ht; decide)
  refine ⟨h.1, fun hv => ?_⟩
  have hpw := (h.2.2 [c4_trade, c4_trade] (by simp)).mp hv
  rw [List.pairwise_cons] at hpw
  exact (hpw.1 c4_trade (List.mem_singleton.mpr rfl)).1 rfl

/-- Membership characterization of the 1-for-1 generator: exactly the
combinations of one complementary position per direction with one of each
side's top-3 players there. -/
lemma generate_1_for_1_trades_mem_iff (team_a : String) (A : String → List Player)
    (aps : List String) (team_b : String) (B : String → List Player) (bps : List String)
    (tr : Trade) :
    tr ∈ generate_1_for_1_trades team_a A aps team_b B bps ↔
      ∃ a_pos ∈ aps, ∃ b_pos ∈ bps, ∃ pa ∈ (A a_pos).take 3, ∃ pb ∈ (B b_pos).take 3,
        tr = mk_1for1 team_a team_b a_pos b_pos pa pb := by
  unfold generate_1_for_1_trades
  simp only [List.mem_flatMap, List.mem_map]
  constructor
  · rintro ⟨a_pos, ha, b_pos, hb, pa, hpa, pb, hpb, heq⟩
    exact ⟨a_pos, ha, b_pos, hb, pa, hpa, pb, hpb, heq.symm⟩
  · rintro ⟨a_pos, ha, b_pos, hb, pa, hpa, pb, hpb, heq⟩
    exact ⟨a_pos, ha, b_pos, hb, pa, hpa, pb, hpb, heq.symm⟩

/-- Every trade produced by the 2-for-2 generator is a `mk_2for2`. -/
lemma generate_2_for_2_trades_shape (team_a : String) (A : String → List Player)
    (aps : List String) (team_b : String) (B : String → List Player) (bps : List String)
    (tr : Trade) (h : tr ∈ generate_2_for_2_trades team_a A aps team_b B bps) :
    ∃ a1 a2 b1 b2 pa1 pa2 pb1 pb2,
      tr = mk_2for2 team_a team_b a1 a2 b1 b2 pa1 pa2 pb1 pb2 := by
  unfold generate_2_for_2_trades at h
  rcases List.mem_flatMap.mp h with ⟨ap, -, h⟩
  rcases List.mem_flatMap.mp h with ⟨bp, -, h⟩
  dsimp only at h
  rcases List.mem_flatMap.mp h with ⟨pa1, -, h⟩
  rcases List.mem_flatMap.mp h with ⟨pa2, -, h⟩
  by_cases hca : pa1.sleeper_id = pa2.sleeper_id
  · rw [if_pos hca] at h
    cases h
  · rw [if_neg hca] at h
    rcases List.mem_flatMap.mp h with ⟨pb1, -, h⟩
    rcases List.mem_flatMap.mp h with ⟨pb2, -, h⟩
    by_cases hcb : pb1.sleeper_id = pb2.sleeper_id
    · rw [if_pos hcb] at h
      cases h
    · rw [if_neg hcb] at h
      rw [List.mem_singleton] at h
      exact ⟨ap.1, ap.2, bp.1, bp.2, pa1, pa2, pb1, pb2, h⟩

/-- C8: for a pair of teams, candidates are generated only when both
surplus/need intersections are non-empty; the generated 1-for-1 candidates
are then exactly the combinations of each complementary position pair with
one of each team's top-3 players at its surplus position; and no generated
candidate sends more than 2 players per side. -/
theorem c8_complementary_generation (team_a : String) (a_needs a_surplus : List String)
    (team_b : String) (b_needs b_surplus : List String) (ra rb : List Player) :
    ((a_surplus.filter (fun pos => pos ∈ b_needs)).isEmpty = true ∨
        (b_surplus.filter (fun pos => pos ∈ a_needs)).isEmpty = true →
      find_complementary_trades team_a a_needs a_surplus team_b b_needs b_surplus ra rb = []) ∧
    (¬ ((a_surplus.filter (fun pos => pos ∈ b_needs)).isEmpty = true ∨
        (b_surplus.filter (fun pos => pos ∈ a_needs)).isEmpty = true) →
      ∀ tr,
        (tr ∈ find_complementary_trades team_a a_needs a_surplus team_b b_needs b_surplus ra rb ∧
          tr.type = "1-for-1") ↔
        ∃ a_pos ∈ a_surplus.filter (fun pos => pos ∈ b_needs),
        ∃ b_pos ∈ b_surplus.filter (fun pos => pos ∈ a_needs),
        ∃ pa ∈ (get_team_players_by_position ra a_pos).take 3,
        ∃ pb ∈ (get_team_players_by_position rb b_pos).take 3,
          tr = mk_1for1 team_a team_b a_pos b_pos pa pb) ∧
    (∀ tr ∈ find_complementary_trades team_a a_needs a_surplus team_b b_needs b_surplus ra rb,
      tr.team_a_sends.length ≤ 2 ∧ tr.team_b_sends.length ≤ 2) := by
  refine ⟨?_, ?_, ?_⟩
  · intro h
    unfold find_complementary_trades
    rw [if_pos h]
  · intro h tr
    unfold find_complementary_trades
    rw [if_neg h]
    constructor
    · rintro ⟨hmem, htyp⟩
      rcases List.mem_append.mp hmem with h1 | h2
      · exact (generate_1_for_1_trades_mem_iff _ _ _ _ _ _ tr).mp h1
      · rcases generate_2_for_2_trades_shape _ _ _ _ _ _ tr h2 with
          ⟨a1, a2, b1, b2, pa1, pa2, pb1, pb2, heq⟩
        rw [heq] at htyp
        exact absurd htyp (by simp [mk_2for2])
    · intro hex
      have h1 := (generate_1_for_1_trades_mem_iff team_a
        (get_team_players_by_position ra) (a_surplus.filter (fun pos => pos ∈ b_needs))
        team_b (get_team_players_by_position rb)
        (b_surplus.filter (fun pos => pos ∈ a_needs)) tr).mpr hex
      refine ⟨List.mem_append.mpr (Or.inl h1), ?_⟩
      obtain ⟨a_pos, ha, b_pos, hb, pa, hpa, pb, hpb, heq⟩ := hex
      rw [heq]
      rfl
  · intro tr hmem
    unfold find_complementary_trades at hmem
    dsimp only at hmem
    split at hmem
    · cases hmem
    · rcases List.mem_append.mp hmem with h1 | h2
      · obtain ⟨a_pos, ha, b_pos, hb, pa, hpa, pb, hpb, heq⟩ :=
          (generate_1_for_1_trades_mem_iff _ _ _ _ _ _ tr).mp h1
        rw [heq]
        exact ⟨by norm_num [mk_1for1], by norm_num [mk_1for1]⟩
      · rcases generate_2_for_2_trades_shape _ _ _ _ _ _ tr h2 with
          ⟨a1, a2, b1, b2, pa1, pa2, pb1, pb2, heq⟩
        rw [heq]
        exact ⟨by norm_num [mk_2for2], by norm_num [mk_2for2]⟩

theorem c8_complementary_generation_witness :
    mk_1for1 "A" "B" "QB" "RB" ⟨"qa1", "QB", 50⟩ ⟨"rb1", "RB", 40⟩ ∈
      find_complementary_trades "A" ["RB"] ["QB"] "B" ["QB"] ["RB"]
        [⟨"qa1", "QB", 50⟩] [⟨"rb1", "RB", 40⟩] ∧
    find_complementary_trades "A" [] ["QB"] "B" ["QB"] ["RB"]
        [⟨"qa1", "QB", 50⟩] [⟨"rb1", "RB", 40⟩] = [] := by
  constructor
  · exact (((c8_complementary_generation "A" ["RB"] ["QB"] "B" ["QB"] ["RB"]
      [⟨"qa1", "QB", 50⟩] [⟨"rb1", "RB", 40⟩]).2.1 (by decide)
      (mk_1for1 "A" "B" "QB" "RB" ⟨"qa1", "QB", 50⟩ ⟨"rb1", "RB", 40⟩)).mpr
      ⟨"QB", by decide, "RB", by decide, ⟨"qa1", "QB", 50⟩, by decide,
        ⟨"rb1", "RB", 40⟩, by decide, rfl⟩).1
  · exact (c8_complementary_generation "A" [] ["QB"] "B" ["QB"] ["RB"]
      [⟨"qa1", "QB", 50⟩] [⟨"rb1", "RB", 40⟩]).1 (by decide)

/-- Allocation only moves `next` up and writes at the old `next`. -/
lemma simulate_trade_roster_frame (s : Store) (roster : RosterRef)
    (removes adds : List Player) :
    ((simulate_trade_roster s roster removes adds).1).next = s.next + 1 ∧
    ∀ a, a < s.next →
      ((simulate_trade_roster s roster removes adds).1).heap a = s.heap a := by
  unfold simulate_trade_roster store_alloc
  refine ⟨rfl, ?_⟩
  intro a ha
  dsimp only
  rw [if_neg (by omega)]

/-- C10: computing the starter impact of a trade leaves every pre-existing
players list in the store untouched: simulation works on freshly allocated
copies only, so in particular both input rosters' `players` lists are the
same before and after the call. -/
theorem c10_starter_impact_frame (s : Store) (trade : Trade)
    (team_rosters : String → Option RosterRef) (player_values : List PRow) :
    (∀ a, a < s.next →
      ((calculate_starter_impact s trade team_rosters player_values).1).heap a = s.heap a) ∧
    (∀ r, team_rosters trade.team_a = some r → r.players < s.next →
      ((calculate_starter_impact s trade team_rosters player_values).1).heap r.players =
        s.heap r.players) ∧
    (∀ r, team_rosters trade.team_b = some r → r.players < s.next →
      ((calculate_starter_impact s trade team_rosters player_values).1).heap r.players =
        s.heap r.players) := by
  have hmain : ∀ a, a < s.next →
      ((calculate_starter_impact s trade team_rosters player_values).1).heap a = s.heap a := by
    intro a ha
    unfold calculate_starter_impact
    cases hA : team_rosters trade.team_a with
    | none => rfl
    | some ra =>
      cases hB : team_rosters trade.team_b with
      | none => rfl
      | some rb =>
        dsimp only
        have h1 := simulate_trade_roster_frame s ra trade.team_a_sends trade.team_b_sends
        have h2 := simulate_trade_roster_frame
          (simulate_trade_roster s ra trade.team_a_sends trade.team_b_sends).1 rb
          trade.team_b_sends trade.team_a_sends
        rw [h2.2 a (by rw [h1.1]; omega), h1.2 a ha]
  exact ⟨hmain, fun r _ hr => hmain r.players hr, fun r _ hr => hmain r.players hr⟩

/-- A one-cell store and a roster map pointing both teams at that cell. -/
def c10_store : Store := ⟨1, fun a => if a = 0 then ["421", "4046"] else []⟩

theorem c10_starter_impact_frame_witness :
    ((calculate_starter_impact c10_store
        { type := "1-for-1", team_a := "A", team_b := "B",
          team_a_sends := [⟨"421", "QB", 45⟩], team_b_sends := [⟨"858", "WR", 46⟩] }
        (fun n => if n = "A" then some ⟨0⟩ else if n = "B" then some ⟨0⟩ else none)
        []).1).heap 0 = c10_store.heap 0 :=
  (c10_starter_impact_frame c10_store
      { type := "1-for-1", team_a := "A", team_b := "B",
        team_a_sends := [⟨"421", "QB", 45⟩], team_b_sends := [⟨"858", "WR", 46⟩] }
      (fun n => if n = "A" then some ⟨0⟩ else if n = "B" then some ⟨0⟩ else none)
      []).1 0 (by decide)

end TradeFinder
